import Mathlib

/-!
Shallow embedding of the bulk-email core of the admindashboard repository:
`EmailService` (template loading, single send, connection verification) and
`EmailController.sendBulkEmails` (batching / rate limiting), translated from
`src/services/emailService.ts` and `src/controllers/EmailController.ts`.

Modelling conventions:
* JavaScript numbers used as loop indices / sizes are embedded as `Int`
  (all values involved are integral in the source).
* `x || default` on an optional numeric field is embedded by `jsOrDefault`:
  `undefined` and `0` are falsy in JavaScript, so both select the default.
* Asynchronous effects are sequentialized: `Promise.all(batch.map(f))`
  resolves to the array of outcomes in argument order regardless of
  real-time completion order, so it is embedded as `List.map`.
  The timer (`setTimeout`) is not modelled as time; instead the loop records
  in `delays` the numeric delay argument of each suspension it performs.
* The external collaborators (nodemailer transporter, Handlebars, fs) are
  black-box parameters: functions returning `Except` where the original can
  reject/throw, total functions where it cannot.
* The `try/catch` blocks of the source recover every throw into data; the
  embedded functions are correspondingly total and return results as values.
-/

/-- Result of a single send, from `EmailResult` in `emailService.ts`:
`{ success: boolean; messageId?: string; error?: string }`. -/
structure EmailResult where
  success : Bool
  messageId : Option String
  error : Option String
deriving Repr, DecidableEq

/-- A single send request, from `EmailSendRequest` in `EmailController.ts`
(`to` may be a single address or a list in the source; embedded as a list;
`context` is an opaque key-value record; attachments are (filename, content)
pairs, their content never inspected by the core). -/
structure EmailSendRequest where
  «to» : List String
  subject : String
  template : String
  context : List (String × String)
  attachments : List (String × String)
deriving Repr, DecidableEq

/-- Bulk request, from `EmailBulkRequest` in `EmailController.ts`:
`{ emails; batchSize?; delayBetweenBatches? }`. -/
structure EmailBulkRequest where
  emails : List EmailSendRequest
  batchSize : Option Int
  delayBetweenBatches : Option Int
deriving Repr, DecidableEq

/-- JavaScript `v || d` for an optional number: `undefined` and `0` are
falsy, any other integer is truthy. -/
def jsOrDefault (v : Option Int) (d : Int) : Int :=
  match v with
  | none => d
  | some x => if x = 0 then d else x

/-- JavaScript `Array.prototype.slice(start, end)`: negative indices count
from the end, both indices are clamped to `[0, length]`. -/
def jsSlice (l : List α) (start stop : Int) : List α :=
  let len : Int := l.length
  let s : Int := if start < 0 then max (len + start) 0 else min start len
  let e : Int := if stop < 0 then max (len + stop) 0 else min stop len
  (l.take e.toNat).drop s.toNat

/-- Mutable state of the `sendBulkEmails` loop: the running tally and, as
instrumentation, the list of batches dispatched (`groups`) and the numeric
arguments of the inter-batch suspensions performed (`delays`). -/
structure BulkState where
  successful : Nat
  failed : Nat
  results : List EmailResult
  groups : List (List EmailSendRequest)
  delays : List Int
deriving Repr, DecidableEq

/-- The `for (let i = 0; i < request.emails.length; i += batchSize)` loop of
`EmailController.sendBulkEmails`, with explicit fuel: `none` means the fuel
was exhausted before the loop condition became false.  Each iteration slices
the current batch, maps the single-send operation over it (`Promise.all`
preserves argument order), pushes the outcomes, counts successes and
failures, and suspends for `delay` unless the batch was the last
(`i + batchSize < emails.length`). -/
def bulkLoop (f : EmailSendRequest → EmailResult) (emails : List EmailSendRequest)
    (batchSize delay : Int) : Nat → Int → BulkState → Option BulkState
  | 0, i, st => if i < (emails.length : Int) then none else some st
  | fuel + 1, i, st =>
    if i < (emails.length : Int) then
      let batch := jsSlice emails i (i + batchSize)
      let batchResults := batch.map f
      let st2 : BulkState :=
        { successful := st.successful + batchResults.countP (fun r => r.success)
          failed := st.failed + batchResults.countP (fun r => !r.success)
          results := st.results ++ batchResults
          groups := st.groups ++ [batch]
          delays :=
            if i + batchSize < (emails.length : Int) then st.delays ++ [delay]
            else st.delays }
      bulkLoop f emails batchSize delay fuel (i + batchSize) st2
    else some st

/-- The value returned by `sendBulkEmails`, plus the instrumentation fields. -/
structure BulkSummary where
  total : Nat
  successful : Nat
  failed : Nat
  results : List EmailResult
  groups : List (List EmailSendRequest)
  delays : List Int
deriving Repr, DecidableEq

/-- `EmailController.sendBulkEmails`, parametrized by the single-send
outcome function `f` (the controller calls `this.sendEmail`, which returns
the service outcome unchanged and never throws) and by loop fuel. -/
def sendBulkEmailsRun (f : EmailSendRequest → EmailResult) (fuel : Nat)
    (req : EmailBulkRequest) : Option BulkSummary :=
  let batchSize := jsOrDefault req.batchSize 10
  let delay := jsOrDefault req.delayBetweenBatches 1000
  (bulkLoop f req.emails batchSize delay fuel 0 ⟨0, 0, [], [], []⟩).map fun st =>
    { total := req.emails.length
      successful := st.successful
      failed := st.failed
      results := st.results
      groups := st.groups
      delays := st.delays }

/-- Reference partition of a list into contiguous chunks of size `b`
(last chunk possibly shorter); used to state the partitioning claims. -/
def chunks (b : Nat) : List α → List (List α)
  | [] => []
  | x :: xs => (x :: xs).take b :: chunks b (xs.drop (b - 1))
termination_by l => l.length
decreasing_by
  simp only [List.length_cons, List.length_drop]
  omega

/-- Mail options handed to the transporter by `sendEmail`
(`from`, `to`, `subject`, `html`, `attachments`, optional `replyTo`). -/
structure MailOptions where
  fromAddr : String
  «to» : List String
  subject : String
  html : String
  attachments : List (String × String)
  replyTo : Option String
deriving Repr

/-- Black-box collaborators and configuration of `EmailService`: the map of
compiled templates (a compiled template renders a context or throws a render
error), the nodemailer transporter (`sendMail` resolves to a message id or
rejects; `verify` resolves or rejects), and `EMAIL_CONFIG`. -/
structure EmailEnv where
  templates : String → Option (List (String × String) → Except String String)
  transporterSend : MailOptions → Except String String
  transporterVerify : Except String Unit
  cfgFrom : String
  cfgReplyTo : Option String

/-- `EmailService.sendEmail`: looks the template up, throws
`Template ... not found` when absent, renders, sends; the surrounding
`catch` turns every throw into `{success:false, error}`.  The second
component counts the transporter `sendMail` invocations made (0 or 1). -/
def EmailService.sendEmail (env : EmailEnv) (data : EmailSendRequest) :
    EmailResult × Nat :=
  match env.templates data.template with
  | none =>
    ({ success := false, messageId := none
       error := some ("Template " ++ data.template ++ " not found") }, 0)
  | some template =>
    match template data.context with
    | Except.error e => ({ success := false, messageId := none, error := some e }, 0)
    | Except.ok htmlContent =>
      let mailOptions : MailOptions :=
        { fromAddr := env.cfgFrom, «to» := data.«to», subject := data.subject
          html := htmlContent, attachments := data.attachments
          replyTo := env.cfgReplyTo }
      match env.transporterSend mailOptions with
      | Except.error e =>
        ({ success := false, messageId := none, error := some e }, 1)
      | Except.ok messageId =>
        ({ success := true, messageId := some messageId, error := none }, 1)

/-- `EmailService.verifyConnection`: awaits `transporter.verify()` and
returns `true`; the `catch` returns `false` on any rejection. -/
def EmailService.verifyConnection (env : EmailEnv) : Bool :=
  match env.transporterVerify with
  | Except.ok _ => true
  | Except.error _ => false

/-- `EmailController.verifyConnection`: awaits the service call (which never
throws) and returns its boolean; its own `catch` branch is unreachable. -/
def EmailController.verifyConnection (env : EmailEnv) : Bool :=
  EmailService.verifyConnection env

/-- Insertion-ordered map update, the semantics of JavaScript `Map.set`:
an existing key is overwritten in place, a new key is appended. -/
def mapSet (k : String) (v : α) : List (String × α) → List (String × α)
  | [] => [(k, v)]
  | (k2, v2) :: rest => if k2 = k then (k, v) :: rest else (k2, v2) :: mapSet k v rest

/-- JavaScript `Map.get`: the value stored at `k`, if any. -/
def mapGet (k : String) : List (String × α) → Option α
  | [] => none
  | (k2, v) :: rest => if k2 = k then some v else mapGet k rest

/-- JavaScript `String.prototype.replace` with a plain-string pattern:
replaces the first occurrence only. -/
def replaceFirst (s pat repl : String) : String :=
  match s.splitOn pat with
  | [] => s
  | head :: rest =>
    if rest.isEmpty then s else head ++ repl ++ String.intercalate pat rest

/-- The two template maps of `EmailService`: `templates` holds compiled
templates, `templateCache` the raw file contents. -/
structure TemplateStore where
  templates : List (String × (List (String × String) → Except String String))
  templateCache : List (String × String)

/-- The `forEach` body sequence of `EmailService.loadTemplates`: for each
`.hbs` file, read it (a throwing `readFileSync` aborts the whole loop, the
outer `catch` keeps the state built so far), store the raw content in
`templateCache` and the compiled template in `templates` under the file name
with the first `.hbs` stripped.  `Handlebars.compile` defers parsing to the
first render call, so it is embedded as a total function. -/
def loadLoop (readFile : String → Except String String)
    (compile : String → List (String × String) → Except String String) :
    List String → TemplateStore → TemplateStore
  | [], st => st
  | file :: rest, st =>
    if file.endsWith ".hbs" then
      match readFile file with
      | Except.error _ => st
      | Except.ok templateContent =>
        let templateName := replaceFirst file ".hbs" ""
        loadLoop readFile compile rest
          { templateCache := mapSet templateName templateContent st.templateCache
            templates := mapSet templateName (compile templateContent) st.templates }
    else loadLoop readFile compile rest st

/-- `EmailService.loadTemplates`: list the templates directory (a throwing
`readdirSync` is caught, leaving both maps empty) and process each file. -/
def loadTemplates (listing : Except String (List String))
    (readFile : String → Except String String)
    (compile : String → List (String × String) → Except String String) :
    TemplateStore :=
  match listing with
  | Except.error _ => ⟨[], []⟩
  | Except.ok files => loadLoop readFile compile files ⟨[], []⟩

/-- `EmailService.getAvailableTemplates`: `Array.from(this.templates.keys())`. -/
def EmailService.getAvailableTemplates (st : TemplateStore) : List String :=
  st.templates.map Prod.fst

/-- `EmailService.getTemplateContent`: `this.templateCache.get(templateName)`. -/
def EmailService.getTemplateContent (st : TemplateStore) (templateName : String) :
    Option String :=
  mapGet templateName st.templateCache

/-- Successes and failures of a result list partition its length. -/
theorem countP_success_add (rs : List EmailResult) :
    rs.countP (fun r => r.success) + rs.countP (fun r => !r.success) = rs.length := by
  induction rs with
  | nil => simp
  | cons r rest ih =>
    by_cases h : r.success <;> simp [List.countP_cons, h] <;> omega

/-- Unfolding of `chunks` on a non-empty list with positive chunk size. -/
theorem chunks_cons {α : Type} (b : Nat) (hb : 0 < b) (l : List α) (h : l ≠ []) :
    chunks b l = l.take b :: chunks b (l.drop b) := by
  cases l with
  | nil => exact absurd rfl h
  | cons x xs =>
    simp only [chunks]
    congr 2
    cases b with
    | zero => omega
    | succ b2 => simp

/-- `chunks` is empty exactly on the empty list. -/
theorem chunks_eq_nil_iff {α : Type} (b : Nat) (l : List α) :
    chunks b l = [] ↔ l = [] := by
  cases l <;> simp [chunks]

/-- `jsSlice` at a nonnegative start and width equals drop-then-take. -/
theorem jsSlice_nat {α : Type} (l : List α) (j b : Nat) :
    jsSlice l (j : Int) ((j : Int) + (b : Int)) = (l.drop j).take b := by
  simp only [jsSlice]
  have h1 : ¬ ((j : Int) < 0) := by omega
  have h2 : ¬ ((j : Int) + (b : Int) < 0) := by omega
  rw [if_neg h1, if_neg h2]
  have e1 : (min (j : Int) (l.length : Int)).toNat = min j l.length := by omega
  have e2 : (min ((j : Int) + (b : Int)) (l.length : Int)).toNat
      = min (j + b) l.length := by omega
  rw [e1, e2, List.drop_take]
  by_cases hj : j ≤ l.length
  · rw [Nat.min_eq_left hj]
    apply List.take_eq_take.mpr
    simp only [List.length_drop]
    omega
  · have hd1 : l.drop (min j l.length) = [] := by
      apply List.drop_eq_nil_iff.mpr
      omega
    have hd2 : l.drop j = [] := by
      apply List.drop_eq_nil_iff.mpr
      omega
    rw [hd1, hd2]
    simp

/-- Main invariant of the batching loop: whenever the loop returns (with any
fuel, from any start index `j` and accumulator `st`) and the step `b` is a
positive integer, the final state extends the accumulator with exactly the
outcomes, batches, suspensions and tallies of the remaining suffix
`emails.drop j`, the batches being its `chunks b` partition. -/
theorem bulkLoop_some {f : EmailSendRequest → EmailResult} {e : List EmailSendRequest}
    {b : Nat} (hb : 0 < b) {d : Int} :
    ∀ (fuel : Nat) (j : Nat) (st st' : BulkState),
      bulkLoop f e (b : Int) d fuel (j : Int) st = some st' →
      st'.results = st.results ++ (e.drop j).map f ∧
      st'.groups = st.groups ++ chunks b (e.drop j) ∧
      st'.delays = st.delays ++ List.replicate ((chunks b (e.drop j)).length - 1) d ∧
      st'.successful = st.successful + ((e.drop j).map f).countP (fun r => r.success) ∧
      st'.failed = st.failed + ((e.drop j).map f).countP (fun r => !r.success) := by
  intro fuel
  induction fuel with
  | zero =>
    intro j st st' h
    simp only [bulkLoop] at h
    split at h
    · exact absurd h (by simp)
    · rename_i hge
      have hj : e.length ≤ j := by
        rw [Int.not_lt] at hge
        exact_mod_cast hge
      have hd : e.drop j = [] := List.drop_eq_nil_iff.mpr hj
      cases h
      simp [hd, chunks]
  | succ fuel ih =>
    intro j st st' h
    simp only [bulkLoop] at h
    by_cases hguard : (j : Int) < (e.length : Int)
    · rw [if_pos hguard] at h
      have hjlen : j < e.length := by exact_mod_cast hguard
      have hcast : ((j : Int) + (b : Int)) = (((j + b : Nat) : Int)) := by push_cast; ring
      rw [jsSlice_nat, hcast] at h
      obtain ⟨hres, hgrp, hdel, hsucc, hfail⟩ := ih (j + b) _ st' h
      have hdj : e.drop j ≠ [] := by
        intro hnil
        have := List.drop_eq_nil_iff.mp hnil
        omega
      have hdd : (e.drop j).drop b = e.drop (j + b) := by
        rw [List.drop_drop]
      have hchunks : chunks b (e.drop j)
          = (e.drop j).take b :: chunks b (e.drop (j + b)) := by
        rw [chunks_cons b hb _ hdj, hdd]
      have htd : (e.drop j).take b ++ e.drop (j + b) = e.drop j := by
        rw [Nat.add_comm j b]
        exact List.drop_take_append_drop' e j b
      refine ⟨?_, ?_, ?_, ?_, ?_⟩
      · rw [hres]
        simp only [List.append_assoc, ← List.map_append, htd]
      · rw [hgrp, hchunks]
        simp
      · rw [hdel, hchunks]
        by_cases hrest : ((j + b : Nat) : Int) < (e.length : Int)
        · rw [if_pos hrest]
          have hrn : j + b < e.length := by exact_mod_cast hrest
          have hrne : e.drop (j + b) ≠ [] := by
            intro hnil
            have := List.drop_eq_nil_iff.mp hnil
            omega
          have hnc : (chunks b (e.drop (j + b))).length ≠ 0 := by
            intro h0
            exact hrne ((chunks_eq_nil_iff b _).mp (List.length_eq_zero.mp h0))
          obtain ⟨m, hm⟩ : ∃ m, (chunks b (e.drop (j + b))).length = m + 1 :=
            ⟨_, (Nat.succ_pred_eq_of_pos (Nat.pos_of_ne_zero hnc)).symm⟩
          simp only [List.length_cons, Nat.add_sub_cancel, List.append_assoc,
            List.singleton_append]
          rw [hm, List.replicate_succ]
          simp
        · rw [if_neg hrest]
          have hrn : e.length ≤ j + b := by
            rw [Int.not_lt] at hrest
            exact_mod_cast hrest
          have hrne : e.drop (j + b) = [] := List.drop_eq_nil_iff.mpr hrn
          rw [hrne]
          simp [chunks]
      · rw [hsucc]
        conv_rhs => rw [← htd]
        simp only [List.map_append, List.countP_append]
        omega
      · rw [hfail]
        conv_rhs => rw [← htd]
        simp only [List.map_append, List.countP_append]
        omega
    · rw [if_neg hguard] at h
      have hj : e.length ≤ j := by
        rw [Int.not_lt] at hguard
        exact_mod_cast hguard
      have hd : e.drop j = [] := List.drop_eq_nil_iff.mpr hj
      cases h
      simp [hd, chunks]

/-- With a positive integer step, the loop returns once the fuel covers the
remaining length. -/
theorem bulkLoop_total {f : EmailSendRequest → EmailResult} {e : List EmailSendRequest}
    {b : Nat} (hb : 0 < b) {d : Int} :
    ∀ (fuel j : Nat) (st : BulkState), e.length ≤ j + fuel →
      ∃ st2, bulkLoop f e (b : Int) d fuel (j : Int) st = some st2 := by
  intro fuel
  induction fuel with
  | zero =>
    intro j st hle
    refine ⟨st, ?_⟩
    simp only [bulkLoop]
    rw [if_neg]
    rw [Int.not_lt]
    exact_mod_cast hle
  | succ fuel ih =>
    intro j st hle
    by_cases hg : (j : Int) < (e.length : Int)
    · have hjlen : j < e.length := by exact_mod_cast hg
      simp only [bulkLoop]
      rw [if_pos hg]
      have hcast : ((j : Int) + (b : Int)) = (((j + b : Nat) : Int)) := by push_cast; ring
      rw [hcast]
      exact ih (j + b) _ (by omega)
    · refine ⟨st, ?_⟩
      simp only [bulkLoop]
      rw [if_neg hg]

/-- With a negative step the loop index only decreases, so from any index
below the length the loop never returns, whatever the fuel. -/
theorem bulkLoop_neg_none {f : EmailSendRequest → EmailResult} {e : List EmailSendRequest}
    {bs : Int} (hb : bs < 0) {d : Int} :
    ∀ (fuel : Nat) (i : Int) (st : BulkState), i < (e.length : Int) →
      bulkLoop f e bs d fuel i st = none := by
  intro fuel
  induction fuel with
  | zero =>
    intro i st hi
    simp only [bulkLoop]
    rw [if_pos hi]
  | succ fuel ih =>
    intro i st hi
    simp only [bulkLoop]
    rw [if_pos hi]
    exact ih _ _ (by omega)

/-- The effective batch size is never the multiplicative-zero step. -/
theorem jsOrDefault_ne_zero (v : Option Int) (d : Int) (hd : d ≠ 0) :
    jsOrDefault v d ≠ 0 := by
  match v with
  | none => simpa [jsOrDefault]
  | some x =>
    simp only [jsOrDefault]
    split <;> simp_all

/-- Full-run characterization of `sendBulkEmails`: any returned summary is
exactly determined by the request and the single-send outcome function:
the results are the outcomes of all sends in input order, the groups are the
`chunks` partition at the effective batch size, the delays are one effective
delay per group boundary, and the tallies count successes and failures. -/
theorem sendBulkEmailsRun_some {f : EmailSendRequest → EmailResult} {fuel : Nat}
    {req : EmailBulkRequest} {s : BulkSummary}
    (h : sendBulkEmailsRun f fuel req = some s) :
    s.total = req.emails.length ∧
    s.results = req.emails.map f ∧
    s.groups = chunks (jsOrDefault req.batchSize 10).toNat req.emails ∧
    s.delays = List.replicate (s.groups.length - 1) (jsOrDefault req.delayBetweenBatches 1000) ∧
    s.successful = (req.emails.map f).countP (fun r => r.success) ∧
    s.failed = (req.emails.map f).countP (fun r => !r.success) := by
  obtain ⟨emails, rbs, rdb⟩ := req
  simp only [sendBulkEmailsRun, Option.map_eq_some'] at h
  obtain ⟨st, hloop, hs⟩ := h
  have hbs : jsOrDefault rbs 10 ≠ 0 := jsOrDefault_ne_zero _ _ (by omega)
  rcases lt_or_gt_of_ne hbs with hneg | hpos
  · -- negative effective batch size: the loop only returns on empty input
    have hempty : emails = [] := by
      by_contra hne
      have hlen : 0 < emails.length := List.length_pos.mpr hne
      have hnone := @bulkLoop_neg_none f emails (jsOrDefault rbs 10) hneg
        (jsOrDefault rdb 1000) fuel 0 ⟨0, 0, [], [], []⟩ (by exact_mod_cast hlen)
      rw [hnone] at hloop
      exact absurd hloop (by simp)
    subst hempty
    have hst : (⟨0, 0, [], [], []⟩ : BulkState) = st := by
      cases fuel <;> simpa [bulkLoop] using hloop
    subst hst
    rw [← hs]
    simp [chunks]
  · -- positive effective batch size: apply the loop invariant from index 0
    set b : Nat := (jsOrDefault rbs 10).toNat with hbdef
    have hb : 0 < b := by
      have := Int.toNat_of_nonneg (le_of_lt hpos)
      omega
    have hcast : jsOrDefault rbs 10 = (b : Int) := by
      rw [hbdef, Int.toNat_of_nonneg (le_of_lt hpos)]
    rw [hcast] at hloop
    have h0 : (0 : Int) = ((0 : Nat) : Int) := by simp
    rw [h0] at hloop
    obtain ⟨hres, hgrp, hdel, hsucc, hfail⟩ := bulkLoop_some hb fuel 0 _ _ hloop
    simp only [List.drop_zero, List.nil_append, Nat.zero_add] at hres hgrp hdel hsucc hfail
    rw [← hs]
    refine ⟨rfl, hres, hgrp, ?_, hsucc, hfail⟩
    simp only [hdel, hgrp]

/-- Concrete fixture: a well-formed send request. -/
def sampleSend : EmailSendRequest :=
  { «to» := ["a"], subject := "s", template := "welcome"
    context := [], attachments := [] }

/-- Concrete fixture: the single-send outcome function induced by a
transport and renderer that always succeed. -/
def alwaysOk : EmailSendRequest → EmailResult :=
  fun _ => { success := true, messageId := some "m", error := none }

/-- Concrete fixture: a bulk request of 7 sends with batch size 3. -/
def reqSeven : EmailBulkRequest :=
  ⟨List.replicate 7 sampleSend, some 3, some 100⟩

/-- Concrete fixture: the summary `sendBulkEmails` returns on `reqSeven`. -/
def sevenSummary : BulkSummary :=
  (sendBulkEmailsRun alwaysOk 7 reqSeven).getD ⟨0, 0, 0, [], [], []⟩

/-- C1: for every BatchRequest on which sendBulkEmails returns, the returned
summary satisfies `total = len(sends)`, `successful + failed = total` and
`len(results) = total` (the run is fuel-indexed; `some s` is the returning
case). -/
theorem sendBulkEmails_tally (f : EmailSendRequest → EmailResult) (fuel : Nat)
    (req : EmailBulkRequest) (s : BulkSummary)
    (h : sendBulkEmailsRun f fuel req = some s) :
    s.total = req.emails.length ∧ s.successful + s.failed = s.total ∧
      s.results.length = s.total := by
  obtain ⟨ht, hres, _, _, hsucc, hfail⟩ := sendBulkEmailsRun_some h
  refine ⟨ht, ?_, ?_⟩
  · rw [hsucc, hfail, countP_success_add, List.length_map, ht]
  · rw [hres, List.length_map, ht]

/-- C1 witness: the tally invariant at a concrete 7-send request. -/
theorem sendBulkEmails_tally_witness :
    sevenSummary.total = reqSeven.emails.length ∧
      sevenSummary.successful + sevenSummary.failed = sevenSummary.total ∧
      sevenSummary.results.length = sevenSummary.total :=
  sendBulkEmails_tally alwaysOk 7 reqSeven sevenSummary rfl

/-- C2: the results list of any returned summary has the length of the input
sends and its i-th entry is the outcome of the i-th send: the whole list is
the input list mapped through the single-send outcome function (the
embedding of `Promise.all`, which resolves positionally regardless of
completion order). -/
theorem sendBulkEmails_order (f : EmailSendRequest → EmailResult) (fuel : Nat)
    (req : EmailBulkRequest) (s : BulkSummary)
    (h : sendBulkEmailsRun f fuel req = some s) :
    s.results.length = req.emails.length ∧
      s.results = req.emails.map f ∧
      ∀ i : Nat, s.results[i]? = (req.emails[i]?).map f := by
  obtain ⟨_, hres, _, _, _, _⟩ := sendBulkEmailsRun_some h
  refine ⟨by rw [hres, List.length_map], hres, fun i => ?_⟩
  rw [hres, List.getElem?_map]

/-- C2 witness: positional correspondence at a concrete 7-send request. -/
theorem sendBulkEmails_order_witness :
    sevenSummary.results.length = reqSeven.emails.length ∧
      sevenSummary.results = reqSeven.emails.map alwaysOk ∧
      ∀ i : Nat, sevenSummary.results[i]? = (reqSeven.emails[i]?).map alwaysOk :=
  sendBulkEmails_order alwaysOk 7 reqSeven sevenSummary rfl

/-- On an empty sends list the loop condition is false at once, so the run
returns the zero summary whatever the fuel and parameters. -/
theorem sendBulkEmailsRun_nil (f : EmailSendRequest → EmailResult) (fuel : Nat)
    (rbs rdb : Option Int) :
    sendBulkEmailsRun f fuel ⟨[], rbs, rdb⟩ = some ⟨0, 0, 0, [], [], []⟩ := by
  cases fuel <;> simp [sendBulkEmailsRun, bulkLoop]

/-- C8: on an empty sends list, `sendBulkEmails` returns the zero summary
with no results, no groups dispatched (hence zero transport calls: the
single-send operation is never invoked) and no delay, for every fuel. -/
theorem sendBulkEmails_empty (f : EmailSendRequest → EmailResult) (fuel : Nat)
    (req : EmailBulkRequest) (h : req.emails = []) :
    sendBulkEmailsRun f fuel req = some ⟨0, 0, 0, [], [], []⟩ := by
  obtain ⟨emails, rbs, rdb⟩ := req
  simp only at h
  subst h
  exact sendBulkEmailsRun_nil f fuel rbs rdb

/-- C8 witness: the empty bulk request returns the zero summary. -/
theorem sendBulkEmails_empty_witness :
    sendBulkEmailsRun alwaysOk 5 ⟨[], none, none⟩ = some ⟨0, 0, 0, [], [], []⟩ :=
  sendBulkEmails_empty alwaysOk 5 ⟨[], none, none⟩ rfl

/-- C9: `verifyConnection` (service and controller) returns `true` when the
transporter verify primitive resolves and `false` when it rejects; both are
total functions of the environment (no exception escapes, no send state is
touched). -/
theorem verifyConnection_spec (env : EmailEnv) :
    ((∃ u, env.transporterVerify = Except.ok u) →
        EmailService.verifyConnection env = true ∧
        EmailController.verifyConnection env = true) ∧
    (∀ e, env.transporterVerify = Except.error e →
        EmailService.verifyConnection env = false ∧
        EmailController.verifyConnection env = false) := by
  constructor
  · rintro ⟨u, hu⟩
    simp [EmailService.verifyConnection, EmailController.verifyConnection, hu]
  · intro e he
    simp [EmailService.verifyConnection, EmailController.verifyConnection, he]

/-- Concrete fixture: collaborators with no templates and a transport that
accepts sends but whose verify primitive rejects. -/
def failVerifyEnv : EmailEnv :=
  { templates := fun _ => none
    transporterSend := fun _ => Except.ok "m"
    transporterVerify := Except.error "connection refused"
    cfgFrom := "noreply@adminfront.com"
    cfgReplyTo := none }

/-- C9 witness: a rejecting verify primitive yields `false` at both layers. -/
theorem verifyConnection_spec_witness :
    EmailService.verifyConnection failVerifyEnv = false ∧
    EmailController.verifyConnection failVerifyEnv = false :=
  (verifyConnection_spec failVerifyEnv).2 "connection refused" rfl

/-- The j-th chunk of the partition is the j-th contiguous slice
`l[j*b : (j+1)*b]`. -/
theorem chunks_getElem {α : Type} (b : Nat) (hb : 0 < b) :
    ∀ (j : Nat) (l : List α), j < (chunks b l).length →
      (chunks b l)[j]? = some ((l.drop (j * b)).take b) := by
  intro j
  induction j with
  | zero =>
    intro l hj
    have hl : l ≠ [] := by
      intro hnil
      rw [hnil] at hj
      simp [chunks] at hj
    rw [chunks_cons b hb l hl]
    simp
  | succ j ih =>
    intro l hj
    have hl : l ≠ [] := by
      intro hnil
      rw [hnil] at hj
      simp [chunks] at hj
    rw [chunks_cons b hb l hl] at hj ⊢
    simp only [List.length_cons] at hj
    have hj2 : j < (chunks b (l.drop b)).length := by omega
    rw [List.getElem?_cons_succ, ih _ hj2, List.drop_drop]
    have harith : b + j * b = (j + 1) * b := by ring
    rw [harith]

/-- C3: with a caller-supplied positive batchSize `b`, any returned summary
partitions the sends into the contiguous groups `sends[i*b : (i+1)*b]` in
input order, and performs exactly `(number of groups) - 1` inter-batch
suspensions, never one after the last group. -/
theorem sendBulkEmails_partition (f : EmailSendRequest → EmailResult) (fuel : Nat)
    (req : EmailBulkRequest) (s : BulkSummary) (b : Int)
    (hb : req.batchSize = some b) (hpos : 0 < b)
    (h : sendBulkEmailsRun f fuel req = some s) :
    s.groups = chunks b.toNat req.emails ∧
      (∀ i : Nat, i < s.groups.length →
        s.groups[i]? = some ((req.emails.drop (i * b.toNat)).take b.toNat)) ∧
      s.delays.length = s.groups.length - 1 := by
  obtain ⟨_, _, hgrp, hdel, _, _⟩ := sendBulkEmailsRun_some h
  have hbneq : b ≠ 0 := by omega
  have hjs : jsOrDefault req.batchSize 10 = b := by
    simp [jsOrDefault, hb, hbneq]
  rw [hjs] at hgrp
  have hbt : 0 < b.toNat := by omega
  refine ⟨hgrp, fun i hi => ?_, ?_⟩
  · rw [hgrp] at hi ⊢
    exact chunks_getElem b.toNat hbt i req.emails hi
  · rw [hdel, List.length_replicate]

/-- C3 witness: 7 sends at batch size 3 give exactly the 3 groups
`sends[0:3]`, `sends[3:6]`, `sends[6:7]` and exactly 2 suspensions. -/
theorem sendBulkEmails_partition_witness :
    (sevenSummary.groups = chunks 3 reqSeven.emails ∧
      (∀ i : Nat, i < sevenSummary.groups.length →
        sevenSummary.groups[i]? = some ((reqSeven.emails.drop (i * 3)).take 3)) ∧
      sevenSummary.delays.length = sevenSummary.groups.length - 1) ∧
    sevenSummary.groups.length = 3 ∧
    sevenSummary.groups.map List.length = [3, 3, 1] ∧
    sevenSummary.delays.length = 2 := by
  refine ⟨sendBulkEmails_partition alwaysOk 7 reqSeven sevenSummary 3 rfl
    (by omega) rfl, ?_, ?_, ?_⟩ <;> rfl

/-- C4: for a send request whose templateId is unknown to the renderer, the
single-send operation returns `{success: false}` with a non-empty error
detail, never invokes the transporter, and delivers this outcome as data
(the embedded `sendEmail` is a total function: every failure path of the
source is a `catch` that returns a result object). -/
theorem sendEmail_unknownTemplate (env : EmailEnv) (data : EmailSendRequest)
    (h : env.templates data.template = none) :
    (EmailService.sendEmail env data).1.success = false ∧
      (EmailService.sendEmail env data).1.error
        = some ("Template " ++ data.template ++ " not found") ∧
      ("Template " ++ data.template ++ " not found") ≠ "" ∧
      (EmailService.sendEmail env data).2 = 0 := by
  have hne : ("Template " ++ data.template ++ " not found") ≠ "" := by
    intro heq
    have hlen := congrArg String.length heq
    rw [String.length_append, String.length_append] at hlen
    have h1 : "Template ".length = 9 := rfl
    have h2 : " not found".length = 10 := rfl
    have h3 : ("" : String).length = 0 := rfl
    omega
  refine ⟨?_, ?_, hne, ?_⟩ <;> simp only [EmailService.sendEmail, h]

/-- C4 witness: the unknown-template outcome at a concrete request against
an environment with no templates. -/
theorem sendEmail_unknownTemplate_witness :
    (EmailService.sendEmail failVerifyEnv sampleSend).1.success = false ∧
      (EmailService.sendEmail failVerifyEnv sampleSend).1.error
        = some ("Template " ++ sampleSend.template ++ " not found") ∧
      ("Template " ++ sampleSend.template ++ " not found") ≠ "" ∧
      (EmailService.sendEmail failVerifyEnv sampleSend).2 = 0 :=
  sendEmail_unknownTemplate failVerifyEnv sampleSend rfl

/-- Concrete fixture: 11 sends with `batchSize = 0`. -/
def reqBatchZero : EmailBulkRequest := ⟨List.replicate 11 sampleSend, some 0, none⟩

/-- Concrete fixture: the run of `sendBulkEmails` on `reqBatchZero`. -/
def bulkBatchZero : Option BulkSummary := sendBulkEmailsRun alwaysOk 11 reqBatchZero

/-- C5 counterexample: with `batchSize = 0` and 11 sends, `sendBulkEmails`
neither processes a single batch (it dispatches 2 groups, because `0` is
falsy and the default 10 applies) nor rejects before any send (all 11 sends
are attempted and a summary is returned), refuting both allowed behaviors. -/
theorem batchSizeZero_counterexample :
    reqBatchZero.batchSize = some 0 ∧
    (bulkBatchZero.map fun s => s.groups.length) = some 2 ∧
    (bulkBatchZero.map fun s => s.results.length) = some 11 ∧
    ¬ ((bulkBatchZero.map fun s => s.groups.length) = some 1 ∨
       (bulkBatchZero.map fun s => s.results.length) = some 0) := by
  have h2 : (bulkBatchZero.map fun s => s.groups.length) = some 2 := rfl
  have h11 : (bulkBatchZero.map fun s => s.results.length) = some 11 := rfl
  refine ⟨rfl, h2, h11, ?_⟩
  rintro (hc | hc)
  · rw [h2] at hc
    exact absurd hc (by simp)
  · rw [h11] at hc
    exact absurd hc (by simp)

/-- C5 amended: a caller-supplied `batchSize` of 0 is falsy in JavaScript,
so `sendBulkEmails` substitutes the default batch size 10 and proceeds
exactly as if `batchSize` had been omitted: it is not treated as
`len(sends)` and not rejected. -/
theorem batchSizeZero_default (f : EmailSendRequest → EmailResult) (fuel : Nat)
    (req : EmailBulkRequest) (h : req.batchSize = some 0) :
    sendBulkEmailsRun f fuel req
      = sendBulkEmailsRun f fuel ⟨req.emails, none, req.delayBetweenBatches⟩ := by
  simp [sendBulkEmailsRun, jsOrDefault, h]

/-- C5 witness: the zero-batch-size request behaves as the default one. -/
theorem batchSizeZero_default_witness :
    sendBulkEmailsRun alwaysOk 11 reqBatchZero
      = sendBulkEmailsRun alwaysOk 11 ⟨reqBatchZero.emails, none,
          reqBatchZero.delayBetweenBatches⟩ :=
  batchSizeZero_default alwaysOk 11 reqBatchZero rfl

/-- Concrete fixture: one send with `batchSize = -1`. -/
def reqNegBatch : EmailBulkRequest := ⟨[sampleSend], some (-1), none⟩

/-- C6 counterexample: with `batchSize = -1` and one send the loop index
only decreases, the loop condition stays true, and `sendBulkEmails` never
returns: no amount of fuel makes the embedded run produce a summary. -/
theorem negativeBatchSize_diverges :
    reqNegBatch.batchSize = some (-1) ∧
    reqNegBatch.emails ≠ [] ∧
    ¬ ∃ (fuel : Nat) (s : BulkSummary),
        sendBulkEmailsRun alwaysOk fuel reqNegBatch = some s := by
  refine ⟨rfl, by simp [reqNegBatch], ?_⟩
  rintro ⟨fuel, s, h⟩
  simp only [sendBulkEmailsRun, Option.map_eq_some'] at h
  obtain ⟨st, hloop, _⟩ := h
  have hnone := @bulkLoop_neg_none alwaysOk reqNegBatch.emails
    (jsOrDefault reqNegBatch.batchSize 10) (by norm_num [reqNegBatch, jsOrDefault])
    (jsOrDefault reqNegBatch.delayBetweenBatches 1000) fuel 0 ⟨0, 0, [], [], []⟩
    (by norm_num [reqNegBatch])
  rw [hnone] at hloop
  exact absurd hloop (by simp)

/-- C6 amended: `sendBulkEmails` runs to completion and returns a summary
whenever the effective batch size is positive (batchSize omitted, 0, or
positive) or the sends list is empty; with a negative batchSize and
non-empty sends the batching loop never terminates. -/
theorem sendBulkEmails_terminates (f : EmailSendRequest → EmailResult)
    (req : EmailBulkRequest)
    (h : 0 < jsOrDefault req.batchSize 10 ∨ req.emails = []) :
    ∃ s, sendBulkEmailsRun f req.emails.length req = some s := by
  obtain ⟨emails, rbs, rdb⟩ := req
  simp only at h ⊢
  rcases h with hpos | hempty
  · set b : Nat := (jsOrDefault rbs 10).toNat with hbdef
    have hb : 0 < b := by
      have := Int.toNat_of_nonneg (le_of_lt hpos)
      omega
    have hcast : jsOrDefault rbs 10 = (b : Int) := by
      rw [hbdef, Int.toNat_of_nonneg (le_of_lt hpos)]
    obtain ⟨st2, hst2⟩ := @bulkLoop_total f emails b hb
      (jsOrDefault rdb 1000) emails.length 0 ⟨0, 0, [], [], []⟩ (by omega)
    refine ⟨⟨emails.length, st2.successful, st2.failed, st2.results,
      st2.groups, st2.delays⟩, ?_⟩
    simp only [sendBulkEmailsRun, hcast]
    rw [show (0 : Int) = ((0 : Nat) : Int) by simp, hst2]
    rfl
  · subst hempty
    exact ⟨_, sendBulkEmailsRun_nil f 0 rbs rdb⟩

/-- C6 witness: termination at a concrete 7-send request. -/
theorem sendBulkEmails_terminates_witness :
    ∃ s, sendBulkEmailsRun alwaysOk reqSeven.emails.length reqSeven = some s :=
  sendBulkEmails_terminates alwaysOk reqSeven (Or.inl (by norm_num [reqSeven, jsOrDefault]))

/-- Concrete fixture: two sends, batch size 1, caller-supplied zero delay. -/
def reqZeroDelay : EmailBulkRequest := ⟨List.replicate 2 sampleSend, some 1, some 0⟩

/-- Concrete fixture: the run of `sendBulkEmails` on `reqZeroDelay`. -/
def bulkZeroDelay : Option BulkSummary := sendBulkEmailsRun alwaysOk 2 reqZeroDelay

/-- C7 counterexample: a caller-supplied `interBatchDelayMs` of 0 is falsy
in JavaScript, so the single inter-batch suspension uses the default 1000
rather than the supplied 0, refuting the claim for the value 0. -/
theorem zeroDelay_counterexample :
    reqZeroDelay.delayBetweenBatches = some 0 ∧
    (bulkZeroDelay.map fun s => s.delays) = some [1000] ∧
    ¬ (bulkZeroDelay.map fun s => s.delays) = some [0] := by
  have h : (bulkZeroDelay.map fun s => s.delays) = some [1000] := rfl
  refine ⟨rfl, h, ?_⟩
  intro hc
  rw [h] at hc
  exact absurd hc (by simp)

/-- C7 amended: every suspension of a returned run uses the effective delay
`delayBetweenBatches || 1000`: exactly the caller-supplied value for every
positive value, and the default 1000 when the caller omits the field or
supplies 0 (one suspension per group boundary). -/
theorem sendBulkEmails_delay (f : EmailSendRequest → EmailResult) (fuel : Nat)
    (req : EmailBulkRequest) (s : BulkSummary)
    (h : sendBulkEmailsRun f fuel req = some s) :
    s.delays = List.replicate (s.groups.length - 1)
        (jsOrDefault req.delayBetweenBatches 1000) ∧
    (∀ d : Int, req.delayBetweenBatches = some d → 0 < d →
        s.delays = List.replicate (s.groups.length - 1) d) ∧
    (req.delayBetweenBatches = none ∨ req.delayBetweenBatches = some 0 →
        s.delays = List.replicate (s.groups.length - 1) 1000) := by
  obtain ⟨_, _, _, hdel, _, _⟩ := sendBulkEmailsRun_some h
  refine ⟨hdel, ?_, ?_⟩
  · intro d hd hdpos
    rw [hdel, hd]
    have : d ≠ 0 := by omega
    simp [jsOrDefault, this]
  · rintro (hd | hd) <;> rw [hdel, hd] <;> simp [jsOrDefault]

/-- C7 witness: the delay characterization at the concrete zero-delay
request (where the effective delay is the default 1000). -/
theorem sendBulkEmails_delay_witness :
    ((bulkZeroDelay.getD ⟨0, 0, 0, [], [], []⟩).delays
        = List.replicate ((bulkZeroDelay.getD ⟨0, 0, 0, [], [], []⟩).groups.length - 1)
            (jsOrDefault reqZeroDelay.delayBetweenBatches 1000) ∧
      (∀ d : Int, reqZeroDelay.delayBetweenBatches = some d → 0 < d →
        (bulkZeroDelay.getD ⟨0, 0, 0, [], [], []⟩).delays
          = List.replicate ((bulkZeroDelay.getD ⟨0, 0, 0, [], [], []⟩).groups.length - 1) d) ∧
      (reqZeroDelay.delayBetweenBatches = none ∨ reqZeroDelay.delayBetweenBatches = some 0 →
        (bulkZeroDelay.getD ⟨0, 0, 0, [], [], []⟩).delays
          = List.replicate ((bulkZeroDelay.getD ⟨0, 0, 0, [], [], []⟩).groups.length - 1) 1000)) :=
  sendBulkEmails_delay alwaysOk 2 reqZeroDelay (bulkZeroDelay.getD ⟨0, 0, 0, [], [], []⟩) rfl

/-- `mapSet` stores under `k` and leaves every other key unchanged. -/
theorem mapGet_mapSet {α : Type} (n k : String) (v : α) :
    ∀ m : List (String × α),
      mapGet n (mapSet k v m) = if n = k then some v else mapGet n m := by
  intro m
  induction m with
  | nil =>
    rcases eq_or_ne n k with h | h
    · subst h
      simp [mapSet, mapGet]
    · simp [mapSet, mapGet, h, Ne.symm h]
  | cons p rest ih =>
    obtain ⟨k2, v2⟩ := p
    rcases eq_or_ne k2 k with h2 | h2
    · subst h2
      rcases eq_or_ne n k2 with h | h
      · subst h
        simp [mapSet, mapGet]
      · simp [mapSet, mapGet, h, Ne.symm h]
    · rcases eq_or_ne n k with h | h
      · subst h
        simp [mapSet, mapGet, h2, Ne.symm h2, ih]
      · rcases eq_or_ne k2 n with h3 | h3
        · subst h3
          simp [mapSet, mapGet, h2, ih, h]
        · simp [mapSet, mapGet, h2, h3, ih, h]

/-- A name is listed among a map's keys exactly when lookup succeeds. -/
theorem mem_keys_iff_mapGet {α : Type} (n : String) :
    ∀ m : List (String × α), n ∈ m.map Prod.fst ↔ (mapGet n m).isSome := by
  intro m
  induction m with
  | nil => simp [mapGet]
  | cons p rest ih =>
    obtain ⟨k2, v2⟩ := p
    rcases eq_or_ne k2 n with h | h
    · subst h
      simp [mapGet]
    · simp [mapGet, h, Ne.symm h, ih]

/-- The template-loading loop keeps the key sets of the compiled-template
map and the raw-content cache equal: each iteration either updates both
under the same name or touches neither (a read failure aborts the loop with
both maps as they were). -/
theorem loadLoop_keys (readFile : String → Except String String)
    (compile : String → List (String × String) → Except String String) :
    ∀ (files : List String) (st : TemplateStore) (n : String),
      ((mapGet n st.templates).isSome ↔ (mapGet n st.templateCache).isSome) →
      ((mapGet n (loadLoop readFile compile files st).templates).isSome
        ↔ (mapGet n (loadLoop readFile compile files st).templateCache).isSome) := by
  intro files
  induction files with
  | nil =>
    intro st n h
    simpa [loadLoop] using h
  | cons file rest ih =>
    intro st n h
    simp only [loadLoop]
    by_cases hf : file.endsWith ".hbs"
    · rw [if_pos hf]
      cases hr : readFile file with
      | error e =>
        exact h
      | ok content =>
        apply ih
        simp only [mapGet_mapSet]
        rcases eq_or_ne n (replaceFirst file ".hbs" "") with hn | hn
        · simp [hn]
        · simp [hn, h]
    · rw [if_neg hf]
      exact ih st n h

/-- C10: after construction (`loadTemplates`), the compiled-template map and
the raw-content cache have the same key set: a template name is listed by
`getAvailableTemplates` iff `getTemplateContent` returns content iff the
compiled-template lookup used by `sendEmail` succeeds.  No other operation
of the service writes either map, so the invariant is preserved thereafter. -/
theorem templates_keyset_invariant (listing : Except String (List String))
    (readFile : String → Except String String)
    (compile : String → List (String × String) → Except String String)
    (templateName : String) :
    ((mapGet templateName (loadTemplates listing readFile compile).templates).isSome
      ↔ (EmailService.getTemplateContent (loadTemplates listing readFile compile)
          templateName).isSome)
    ∧ (templateName ∈ EmailService.getAvailableTemplates
          (loadTemplates listing readFile compile)
      ↔ (mapGet templateName
          (loadTemplates listing readFile compile).templates).isSome) := by
  constructor
  · cases listing with
    | error e => simp [loadTemplates, EmailService.getTemplateContent, mapGet]
    | ok files =>
      simp only [loadTemplates, EmailService.getTemplateContent]
      exact loadLoop_keys readFile compile files ⟨[], []⟩ templateName
        (by simp [mapGet])
  · exact mem_keys_iff_mapGet templateName _
